import Mathlib

set_option autoImplicit false

/-
  Shallow embedding of the collaborative flipbook server (src/server.js and
  the Drawing mongoose model).  Persisted frames are modelled as a list of
  documents; socket.io rooms as a list of (connection id, room) pairs; each
  request handler is a pure function from its inputs and the current state to
  the new state together with the emitted socket events and the trace of
  store operations it attempted.  A boolean `storeFails` argument models the
  awaited database call throwing (the catch branch of the handler).

  Fields that arrive from a socket payload may be absent in JavaScript
  (destructuring yields undefined), so they are embedded as Option values;
  the HTTP route parameters are always present strings.
-/

namespace Flipbook

/-- Semantics of the JavaScript `String.prototype.trim()`: drop leading and
trailing whitespace. -/
def jsTrim (s : String) : String :=
  String.mk (((s.data.dropWhile Char.isWhitespace).reverse.dropWhile
    Char.isWhitespace).reverse)

/-- Semantics of the JavaScript expression `a || b` for string-valued `a`
(undefined and the empty string are falsy). -/
def jsOr (a : Option String) (b : String) : String :=
  match a with
  | some s => if s = "" then b else s
  | none => b

/-- One persisted document of the `Drawing` collection.  `flipbookId` and
`frameIndex` are Option-valued because the socket handlers run
`findOneAndUpdate` without validators, so a document can be created with
these fields undefined. -/
structure Frame where
  flipbookId : Option String
  frameIndex : Option Int
  drawingData : Option String
  createdBy : String
  createdAt : Nat
  updatedAt : Nat
deriving DecidableEq

abbrev Store := List Frame

/-- The compound key of the unique index `(flipbookId, frameIndex)`. -/
def frameKey (fr : Frame) : Option String × Option Int :=
  (fr.flipbookId, fr.frameIndex)

/-- Match of the query `{flipbookId: qf, frameIndex: qi}` against a document. -/
def frameKeyMatches (qf : Option String) (qi : Option Int) (fr : Frame) : Bool :=
  fr.flipbookId == qf && fr.frameIndex == qi

/-- Invariant maintained by `drawingSchema.index({flipbookId: 1, frameIndex: 1},
{unique: true})`: no two documents share the compound key. -/
def StoreInv (st : Store) : Prop :=
  (st.map frameKey).Nodup

instance (st : Store) : Decidable (StoreInv st) :=
  inferInstanceAs (Decidable ((st.map frameKey).Nodup))

/-- Comparison used by `.sort({frameIndex: 1})` on the possibly-absent
`frameIndex` (an absent value sorts before every number). -/
def fiLeB : Option Int → Option Int → Bool
  | none, _ => true
  | some _, none => false
  | some a, some b => decide (a ≤ b)

def frameLe (a b : Frame) : Prop := fiLeB a.frameIndex b.frameIndex = true

instance : DecidableRel frameLe := fun _ _ => inferInstanceAs (Decidable (_ = true))

instance : IsTotal Frame frameLe := by
  constructor
  intro a b
  unfold frameLe fiLeB
  cases a.frameIndex <;> cases b.frameIndex <;> simp <;> omega

instance : IsTrans Frame frameLe := by
  constructor
  intro a b c
  unfold frameLe fiLeB
  cases a.frameIndex <;> cases b.frameIndex <;> cases c.frameIndex <;> simp <;> omega

/-- Model of `Drawing.find({flipbookId}).sort({frameIndex: 1})`. -/
def listFrames (st : Store) (qf : Option String) : List Frame :=
  List.insertionSort frameLe (st.filter (fun fr => fr.flipbookId == qf))

/-- Model of `Drawing.findOne({flipbookId, frameIndex})`. -/
def getFrame (st : Store) (qf : Option String) (qi : Option Int) : Option Frame :=
  st.find? (frameKeyMatches qf qi)

/-- Model of `Drawing.findOne({flipbookId})` (the rename conflict probe). -/
def anyFrameOf (st : Store) (qf : Option String) : Option Frame :=
  st.find? (fun fr => fr.flipbookId == qf)

/-- Replace the first document satisfying `p` by `fr2` (what
`findOneAndUpdate` mutates). -/
def replaceFirst (p : Frame → Bool) (fr2 : Frame) : Store → Store
  | [] => []
  | g :: gs => if p g then fr2 :: gs else g :: replaceFirst p fr2 gs

/-- Model of `Drawing.findOneAndUpdate({flipbookId, frameIndex},
{drawingData, createdBy, updatedAt: Date.now()}, {upsert: true, new: true})`.
On insert the schema default gives `createdAt = Date.now()`.  Returns the new
store and the returned (post-update) document. -/
def upsertFrame (st : Store) (qf : Option String) (qi : Option Int)
    (dd : Option String) (cb : String) (now : Nat) : Store × Frame :=
  match getFrame st qf qi with
  | some fr =>
      let fr2 : Frame := { fr with drawingData := dd, createdBy := cb, updatedAt := now }
      (replaceFirst (frameKeyMatches qf qi) fr2 st, fr2)
  | none =>
      let fr2 : Frame :=
        { flipbookId := qf, frameIndex := qi, drawingData := dd,
          createdBy := cb, createdAt := now, updatedAt := now }
      (st ++ [fr2], fr2)

/-- Model of `Drawing.findOneAndDelete({flipbookId, frameIndex})`. -/
def deleteFrame (st : Store) (qf : Option String) (qi : Option Int) : Store :=
  st.eraseP (frameKeyMatches qf qi)

/-- Model of `Drawing.updateMany({flipbookId: oldId}, {$set: {flipbookId:
newId}})`. -/
def renameFrames (st : Store) (oldId : String) (newId : String) : Store :=
  st.map (fun fr =>
    if fr.flipbookId == some oldId then { fr with flipbookId := some newId } else fr)

/-- Model of `Drawing.deleteMany({flipbookId})`. -/
def deleteFlipbookFrames (st : Store) (qf : String) : Store :=
  st.filter (fun fr => !(fr.flipbookId == some qf))

/-- Payloads of the server-to-client socket events emitted by server.js. -/
inductive Payload where
  | drawingUpdated (flipbookId : Option String) (frameIndex : Option Int)
      (drawingData : Option String) (createdBy : String) (updatedAt : Nat)
  | drawingSaved (flipbookId : Option String) (frameIndex : Option Int) (success : Bool)
  | drawingError (message : String)
  | frameDeleted (flipbookId : Option String) (frameIndex : Option Int)
  | flipbookState (frames : List Frame)
  | flipbookDeleted (flipbookId : String)
  | flipbookRenamed (oldFlipbookId : String) (newFlipbookId : String)
  | cursorUpdated (socketId : String) (userId : Option String) (x : Int) (y : Int)
deriving DecidableEq

/-- Addressing mode of an emit: `socket.emit` (unicast to one connection),
`socket.to(room).emit` (room minus the sender), `io.to(room).emit`
(whole room). -/
inductive Target where
  | toConn (connId : String)
  | toRoomExcept (room : Option String) (sender : String)
  | toRoom (room : Option String)
deriving DecidableEq

structure Msg where
  target : Target
  event : String
  payload : Payload
deriving DecidableEq

/-- socket.io room membership: the set of (connection id, joined room)
pairs, represented as a duplicate-free-by-construction list. -/
abbrev Rooms := List (String × Option String)

/-- Model of `socket.join(room)`: a socket's room set is a Set, so joining a
room the socket is already in changes nothing. -/
def joinRoom (m : Rooms) (c : String) (r : Option String) : Rooms :=
  if m.contains (c, r) then m else m ++ [(c, r)]

/-- Model of `socket.leave(room)`. -/
def leaveRoom (m : Rooms) (c : String) (r : Option String) : Rooms :=
  m.filter (fun p => !(p == (c, r)))

/-- Whether a given emitted message is delivered to connection `c` under the
current membership relation. -/
def deliversTo (m : Rooms) (msg : Msg) (c : String) : Bool :=
  match msg.target with
  | Target.toConn c0 => c == c0
  | Target.toRoomExcept r s => m.contains (c, r) && !(c == s)
  | Target.toRoom r => m.contains (c, r)

/-- Events of `msgs` that connection `c` receives, in emission order. -/
def deliveredEvents (m : Rooms) (msgs : List Msg) (c : String) : List String :=
  (msgs.filter (fun msg => deliversTo m msg c)).map (fun msg => msg.event)

/-- Payload of the client-to-server `drawing-update` event; every field may
be absent. -/
structure UpdateData where
  flipbookId : Option String
  frameIndex : Option Int
  drawingData : Option String
  createdBy : Option String
deriving DecidableEq

/-- Payload of the client-to-server `frame-delete` event. -/
structure DeleteData where
  flipbookId : Option String
  frameIndex : Option Int
deriving DecidableEq

/-- Store operations attempted by a handler, in order. -/
inductive StoreOp where
  | upsert (qf : Option String) (qi : Option Int)
  | deleteOne (qf : Option String) (qi : Option Int)
  | findAll (qf : Option String)
deriving DecidableEq

structure SocketResult where
  store : Store
  msgs : List Msg
  storeOps : List StoreOp
deriving DecidableEq

/-- Embedding of the `socket.on('drawing-update')` handler.  It destructures
the payload and immediately awaits `findOneAndUpdate`; there is no
validation branch.  On success it emits `drawing-updated` to the room
excluding the sender and `drawing-saved` to the sender; if the store call
throws, the catch branch emits a single `drawing-error` to the sender. -/
def handleDrawingUpdate (senderId : String) (d : UpdateData) (now : Nat)
    (storeFails : Bool) (st : Store) : SocketResult :=
  if storeFails then
    { store := st,
      msgs := [⟨Target.toConn senderId, "drawing-error",
                Payload.drawingError "Failed to save drawing"⟩],
      storeOps := [StoreOp.upsert d.flipbookId d.frameIndex] }
  else
    let res := upsertFrame st d.flipbookId d.frameIndex d.drawingData
      (jsOr d.createdBy senderId) now
    { store := res.1,
      msgs := [⟨Target.toRoomExcept d.flipbookId senderId, "drawing-updated",
                Payload.drawingUpdated d.flipbookId d.frameIndex d.drawingData
                  res.2.createdBy res.2.updatedAt⟩,
               ⟨Target.toConn senderId, "drawing-saved",
                Payload.drawingSaved d.flipbookId d.frameIndex true⟩],
      storeOps := [StoreOp.upsert d.flipbookId d.frameIndex] }

/-- Embedding of the `socket.on('frame-delete')` handler: `findOneAndDelete`
then `io.to(flipbookId).emit('frame-deleted', ...)` (whole room, sender
included); the catch branch emits `drawing-error` to the sender. -/
def handleFrameDelete (senderId : String) (d : DeleteData)
    (storeFails : Bool) (st : Store) : SocketResult :=
  if storeFails then
    { store := st,
      msgs := [⟨Target.toConn senderId, "drawing-error",
                Payload.drawingError "Failed to delete frame"⟩],
      storeOps := [StoreOp.deleteOne d.flipbookId d.frameIndex] }
  else
    { store := deleteFrame st d.flipbookId d.frameIndex,
      msgs := [⟨Target.toRoom d.flipbookId, "frame-deleted",
                Payload.frameDeleted d.flipbookId d.frameIndex⟩],
      storeOps := [StoreOp.deleteOne d.flipbookId d.frameIndex] }

structure JoinResult where
  rooms : Rooms
  msgs : List Msg
  storeOps : List StoreOp
deriving DecidableEq

/-- Embedding of the `socket.on('join-flipbook')` handler: `socket.join`
runs first, then the handler fetches the sorted frame list and unicasts
`flipbook-state` to the joining socket; if the fetch throws, the catch
branch only logs, emitting nothing. -/
def handleJoinFlipbook (senderId : String) (flipbookId : Option String)
    (storeFails : Bool) (m : Rooms) (st : Store) : JoinResult :=
  let m2 := joinRoom m senderId flipbookId
  if storeFails then
    { rooms := m2, msgs := [], storeOps := [StoreOp.findAll flipbookId] }
  else
    { rooms := m2,
      msgs := [⟨Target.toConn senderId, "flipbook-state",
                Payload.flipbookState (listFrames st flipbookId)⟩],
      storeOps := [StoreOp.findAll flipbookId] }

/-- Embedding of the `socket.on('leave-flipbook')` handler. -/
def handleLeaveFlipbook (senderId : String) (flipbookId : Option String)
    (m : Rooms) : Rooms :=
  leaveRoom m senderId flipbookId

/-- Result of `GET /api/flipbook/:flipbookId/frames`. -/
structure GetFramesRes where
  status : Nat
  frames : List Frame
deriving DecidableEq

def restGetFrames (flipbookId : String) (storeFails : Bool) (st : Store) : GetFramesRes :=
  if storeFails then ⟨500, []⟩ else ⟨200, listFrames st (some flipbookId)⟩

/-- Result of `GET /api/flipbook/:flipbookId/frame/:frameIndex`. -/
structure GetFrameRes where
  status : Nat
  frame : Option Frame
deriving DecidableEq

def restGetFrame (flipbookId : String) (frameIndex : Int) (storeFails : Bool)
    (st : Store) : GetFrameRes :=
  if storeFails then ⟨500, none⟩
  else
    match getFrame st (some flipbookId) (some frameIndex) with
    | none => ⟨404, none⟩
    | some fr => ⟨200, some fr⟩

/-- Result of `POST /api/flipbook/:flipbookId/frame/:frameIndex`. -/
structure PostFrameRes where
  status : Nat
  store : Store
  frame : Option Frame
deriving DecidableEq

def restPostFrame (flipbookId : String) (frameIndex : Int) (dd : Option String)
    (cb : Option String) (now : Nat) (storeFails : Bool) (st : Store) : PostFrameRes :=
  if storeFails then ⟨500, st, none⟩
  else
    let res := upsertFrame st (some flipbookId) (some frameIndex) dd (jsOr cb "anonymous") now
    ⟨200, res.1, some res.2⟩

/-- Result of `DELETE /api/flipbook/:flipbookId/frame/:frameIndex`: the
route unconditionally responds with the success message after the
`findOneAndDelete`, whether or not a document matched. -/
structure DeleteFrameRes where
  status : Nat
  store : Store
deriving DecidableEq

def restDeleteFrame (flipbookId : String) (frameIndex : Int) (storeFails : Bool)
    (st : Store) : DeleteFrameRes :=
  if storeFails then ⟨500, st⟩
  else ⟨200, deleteFrame st (some flipbookId) (some frameIndex)⟩

/-- Result of `PUT /api/flipbook/:flipbookId/rename`; `msgs` holds the
`flipbook-renamed` broadcast when one is emitted. -/
structure RenameRes where
  status : Nat
  err : Option String
  store : Store
  msgs : List Msg
deriving DecidableEq

def restRename (flipbookId : String) (newFlipbookId : Option String)
    (storeFails : Bool) (st : Store) : RenameRes :=
  if storeFails then ⟨500, some "Failed to rename flipbook", st, []⟩
  else
    match newFlipbookId with
    | none => ⟨400, some "New flipbook ID is required", st, []⟩
    | some nid =>
      if jsTrim nid = "" then ⟨400, some "New flipbook ID is required", st, []⟩
      else
        match anyFrameOf st (some (jsTrim nid)) with
        | some _ => ⟨400, some "A flipbook with this name already exists", st, []⟩
        | none =>
          ⟨200, none, renameFrames st flipbookId (jsTrim nid),
           [⟨Target.toRoom (some flipbookId), "flipbook-renamed",
             Payload.flipbookRenamed flipbookId (jsTrim nid)⟩]⟩

end Flipbook

/-
  Helper lemmas about the store model.
-/

namespace Flipbook

theorem frameKeyMatches_iff (qf : Option String) (qi : Option Int) (fr : Frame) :
    frameKeyMatches qf qi fr = true ↔ fr.flipbookId = qf ∧ fr.frameIndex = qi := by
  simp [frameKeyMatches]

theorem frameKey_eq_of_matches {qf : Option String} {qi : Option Int} {fr : Frame}
    (h : frameKeyMatches qf qi fr = true) : frameKey fr = (qf, qi) := by
  rcases (frameKeyMatches_iff qf qi fr).mp h with ⟨h1, h2⟩
  simp [frameKey, h1, h2]

theorem matches_of_frameKey_eq {qf : Option String} {qi : Option Int} {fr : Frame}
    (h : frameKey fr = (qf, qi)) : frameKeyMatches qf qi fr = true := by
  apply (frameKeyMatches_iff qf qi fr).mpr
  exact ⟨congrArg Prod.fst h, congrArg Prod.snd h⟩

theorem storeInv_key_unique {st : Store} (h : StoreInv st) {a b : Frame}
    (ha : a ∈ st) (hb : b ∈ st) (hk : frameKey a = frameKey b) : a = b := by
  by_contra hne
  have hp : st.Pairwise (fun x y => frameKey x ≠ frameKey y) := (List.pairwise_map).mp h
  have hsym : Symmetric (fun x y : Frame => frameKey x ≠ frameKey y) :=
    fun x y hxy heq => hxy heq.symm
  exact hp.forall hsym ha hb hne hk

theorem map_frameKey_replaceFirst (p : Frame → Bool) (fr2 : Frame)
    (hkey : ∀ g, p g = true → frameKey g = frameKey fr2) :
    ∀ st : Store, (replaceFirst p fr2 st).map frameKey = st.map frameKey := by
  intro st
  induction st with
  | nil => rfl
  | cons g gs ih =>
    by_cases hg : p g = true
    · simp [replaceFirst, hg, (hkey g hg).symm]
    · simp [replaceFirst, hg, ih]

theorem storeInv_upsert (st : Store) (qf : Option String) (qi : Option Int)
    (dd : Option String) (cb : String) (now : Nat) (h : StoreInv st) :
    StoreInv (upsertFrame st qf qi dd cb now).1 := by
  unfold upsertFrame
  cases hg : getFrame st qf qi with
  | some fr =>
    have hfr : frameKey fr = (qf, qi) :=
      frameKey_eq_of_matches (List.find?_some hg)
    simp only [StoreInv]
    rw [map_frameKey_replaceFirst]
    · exact h
    · intro g hgp
      rw [frameKey_eq_of_matches hgp]
      rw [show frameKey { fr with drawingData := dd, createdBy := cb, updatedAt := now }
            = frameKey fr from rfl, hfr]
  | none =>
    simp only [StoreInv]
    rw [List.map_append]
    apply List.nodup_append.mpr
    refine ⟨h, by simp, ?_⟩
    intro k hk hk2
    simp at hk2
    rcases List.mem_map.mp hk with ⟨g, hgmem, hgkey⟩
    have : frameKeyMatches qf qi g = true := by
      apply matches_of_frameKey_eq
      rw [hgkey, hk2]
      rfl
    exact absurd this (by simpa using List.find?_eq_none.mp hg g hgmem)

theorem storeInv_delete (st : Store) (qf : Option String) (qi : Option Int)
    (h : StoreInv st) : StoreInv (deleteFrame st qf qi) :=
  List.Nodup.sublist (List.Sublist.map frameKey (List.eraseP_sublist st)) h

theorem storeInv_rename (st : Store) (oldId newId : String) (h : StoreInv st)
    (hfree : ∀ fr ∈ st, fr.flipbookId ≠ some newId) :
    StoreInv (renameFrames st oldId newId) := by
  unfold StoreInv renameFrames
  rw [List.map_map, List.Nodup, List.pairwise_map]
  have hp : st.Pairwise (fun x y => frameKey x ≠ frameKey y) := (List.pairwise_map).mp h
  refine hp.imp_of_mem ?_
  intro a b ha hb hk heq
  apply hk
  by_cases hA : a.flipbookId = some oldId
  · by_cases hB : b.flipbookId = some oldId
    · have hi : a.frameIndex = b.frameIndex := by
        simpa [Function.comp, frameKey, hA, hB, Prod.ext_iff] using heq
      simp [frameKey, Prod.ext_iff, hA, hB, hi]
    · exfalso
      have h2 : some newId = b.flipbookId ∧ a.frameIndex = b.frameIndex := by
        simpa [Function.comp, frameKey, hA, hB, Prod.ext_iff] using heq
      exact (hfree b hb) h2.1.symm
  · by_cases hB : b.flipbookId = some oldId
    · exfalso
      have h2 : a.flipbookId = some newId ∧ a.frameIndex = b.frameIndex := by
        simpa [Function.comp, frameKey, hA, hB, Prod.ext_iff] using heq
      exact (hfree a ha) h2.1
    · have h2 : a.flipbookId = b.flipbookId ∧ a.frameIndex = b.frameIndex := by
        simpa [Function.comp, frameKey, hA, hB, Prod.ext_iff] using heq
      simp [frameKey, Prod.ext_iff, h2.1, h2.2]

end Flipbook

namespace Flipbook

theorem storeInv_deleteFlipbook (st : Store) (qf : String) (h : StoreInv st) :
    StoreInv (deleteFlipbookFrames st qf) :=
  List.Nodup.sublist (List.Sublist.map frameKey (List.filter_sublist st)) h

theorem storeInv_restRename (oldId : String) (nid : Option String) (b : Bool)
    (st : Store) (h : StoreInv st) : StoreInv (restRename oldId nid b st).store := by
  unfold restRename
  cases b with
  | true => exact h
  | false =>
    cases nid with
    | none => exact h
    | some n =>
      by_cases ht : jsTrim n = ""
      · simp only [ht, if_pos rfl]
        exact h
      · simp only [if_neg ht]
        cases hfind : anyFrameOf st (some (jsTrim n)) with
        | some fr => exact h
        | none =>
          apply storeInv_rename st oldId (jsTrim n) h
          intro fr hmem heq
          have := List.find?_eq_none.mp hfind fr hmem
          simp [heq] at this

theorem getFrame_delete_none (qf : Option String) (qi : Option Int) :
    ∀ st : Store, StoreInv st → getFrame (deleteFrame st qf qi) qf qi = none := by
  intro st
  induction st with
  | nil => intro _; rfl
  | cons g gs ih =>
    intro h
    have hnodup : ¬ frameKey g ∈ gs.map frameKey ∧ (gs.map frameKey).Nodup := by
      simpa [StoreInv, List.nodup_cons] using h
    by_cases hg : frameKeyMatches qf qi g = true
    · have hdel : deleteFrame (g :: gs) qf qi = gs := by
        simp [deleteFrame, List.eraseP_cons, hg]
      rw [hdel]
      apply List.find?_eq_none.mpr
      intro x hx hpx
      have hxk : frameKey x = (qf, qi) := frameKey_eq_of_matches hpx
      have hgk : frameKey g = (qf, qi) := frameKey_eq_of_matches hg
      exact hnodup.1 (by rw [hgk, ← hxk]; exact List.mem_map_of_mem frameKey hx)
    · have hdel : deleteFrame (g :: gs) qf qi = g :: deleteFrame gs qf qi := by
        simp [deleteFrame, List.eraseP_cons, hg]
      rw [hdel]
      unfold getFrame
      rw [List.find?_cons_of_neg _ (by simpa using hg)]
      exact ih hnodup.2

theorem joinRoom_contains (m : Rooms) (c : String) (r : Option String) :
    (joinRoom m c r).contains (c, r) = true := by
  by_cases h : (c, r) ∈ m
  · simp [joinRoom, h]
  · simp [joinRoom, h]

theorem joinRoom_idem (m : Rooms) (c : String) (r : Option String) :
    joinRoom (joinRoom m c r) c r = joinRoom m c r := by
  have h : (c, r) ∈ joinRoom m c r := by
    by_cases hm : (c, r) ∈ m
    · simp [joinRoom, hm]
    · simp [joinRoom, hm]
  rw [show joinRoom (joinRoom m c r) c r
        = if (joinRoom m c r).contains (c, r) then joinRoom m c r
          else joinRoom m c r ++ [(c, r)] from rfl]
  simp [h]

theorem leaveRoom_of_not_mem (m : Rooms) (c : String) (r : Option String)
    (h : (c, r) ∉ m) : leaveRoom m c r = m := by
  unfold leaveRoom
  apply List.filter_eq_self.mpr
  intro p hp
  simp only [Bool.not_eq_eq_eq_not, Bool.not_true, beq_eq_false_iff_ne, ne_eq]
  intro heq
  exact h (heq ▸ hp)

theorem listFrames_sorted (st : Store) (qf : Option String) :
    List.Sorted frameLe (listFrames st qf) :=
  List.sorted_insertionSort frameLe _

theorem listFrames_nodup_index (st : Store) (qf : Option String) (h : StoreInv st) :
    (listFrames st qf).Pairwise (fun a b => a.frameIndex ≠ b.frameIndex) := by
  unfold listFrames
  have hperm := List.perm_insertionSort frameLe (st.filter (fun fr => fr.flipbookId == qf))
  have hsym : ∀ {x y : Frame}, x.frameIndex ≠ y.frameIndex → y.frameIndex ≠ x.frameIndex :=
    fun hxy heq => hxy heq.symm
  rw [hperm.pairwise_iff hsym]
  have hp : st.Pairwise (fun x y => frameKey x ≠ frameKey y) := (List.pairwise_map).mp h
  have hf := hp.filter (fun fr => fr.flipbookId == qf)
  refine hf.imp_of_mem ?_
  intro a b ha hb hk
  have ha2 : a.flipbookId = qf := by simpa using (List.mem_filter.mp ha).2
  have hb2 : b.flipbookId = qf := by simpa using (List.mem_filter.mp hb).2
  intro hi
  exact hk (by simp [frameKey, Prod.ext_iff, ha2, hb2, hi])

end Flipbook

/-
  Claim theorems.
-/

namespace Flipbook

/-- Claim C1: for a drawing-update event, when the store upsert succeeds the
handler emits drawing-updated addressed to the flipbookId room excluding the
sender, and drawing-saved with success true addressed to the sender alone: a
connection receives drawing-saved exactly when it is the sender, and
drawing-updated exactly when it is a member of the room other than the
sender.  When the upsert fails, the handler emits exactly one drawing-error
to the sender and neither drawing-updated nor drawing-saved. -/
theorem drawing_update_routing (senderId : String) (d : UpdateData) (now : Nat)
    (st : Store) (m : Rooms) (c : String) :
    (∃ pl : Payload,
      (handleDrawingUpdate senderId d now false st).msgs
        = [⟨Target.toRoomExcept d.flipbookId senderId, "drawing-updated", pl⟩,
           ⟨Target.toConn senderId, "drawing-saved",
            Payload.drawingSaved d.flipbookId d.frameIndex true⟩]) ∧
    deliveredEvents m (handleDrawingUpdate senderId d now false st).msgs c
      = (if c = senderId then ["drawing-saved"]
         else if (c, d.flipbookId) ∈ m then ["drawing-updated"] else []) ∧
    (handleDrawingUpdate senderId d now true st).msgs
      = [⟨Target.toConn senderId, "drawing-error",
          Payload.drawingError "Failed to save drawing"⟩] ∧
    deliveredEvents m (handleDrawingUpdate senderId d now true st).msgs c
      = (if c = senderId then ["drawing-error"] else []) := by
  refine ⟨⟨_, rfl⟩, ?_, rfl, ?_⟩
  · by_cases hs : c = senderId
    · simp [handleDrawingUpdate, deliveredEvents, deliversTo, hs]
    · by_cases hm : (c, d.flipbookId) ∈ m
      · simp [handleDrawingUpdate, deliveredEvents, deliversTo, hs, hm]
      · simp [handleDrawingUpdate, deliveredEvents, deliversTo, hs, hm]
  · by_cases hs : c = senderId
    · simp [handleDrawingUpdate, deliveredEvents, deliversTo, hs]
    · simp [handleDrawingUpdate, deliveredEvents, deliversTo, hs]

/-- Claim C2 counterexample: a drawing-update event whose flipbookId is
missing is not rejected before store access: the handler still attempts the
FrameStore upsert (its store-operation trace is nonempty) and, the store
call succeeding, emits no drawing-error-class event at all. -/
theorem drawing_update_missing_field_cex :
    (handleDrawingUpdate "A" ⟨none, some 0, some "blob", none⟩ 5 false []).storeOps ≠ [] ∧
    ((handleDrawingUpdate "A" ⟨none, some 0, some "blob", none⟩ 5 false []).msgs.all
      (fun msg => msg.event != "drawing-error")) = true := by
  decide

/-- Claim C2 amended: an incoming drawing-update whose required fields
(flipbookId or frameIndex) are missing is not rejected before store access:
the handler unconditionally attempts the FrameStore upsert, and a
drawing-error event is emitted exactly when that store call fails. -/
theorem drawing_update_no_validation (senderId : String) (d : UpdateData)
    (now : Nat) (b : Bool) (st : Store)
    (hmissing : d.flipbookId = none ∨ d.frameIndex = none) :
    (handleDrawingUpdate senderId d now b st).storeOps
      = [StoreOp.upsert d.flipbookId d.frameIndex] ∧
    ((handleDrawingUpdate senderId d now b st).msgs.any
      (fun msg => msg.event == "drawing-error")) = b := by
  cases b
  · exact ⟨rfl, by simp [handleDrawingUpdate]⟩
  · exact ⟨rfl, by simp [handleDrawingUpdate]⟩

/-- Witness for the amended C2 at a concrete missing-flipbookId event. -/
theorem drawing_update_no_validation_witness :
    (handleDrawingUpdate "A" ⟨none, some 0, some "b", none⟩ 3 true []).storeOps
      = [StoreOp.upsert none (some 0)] ∧
    ((handleDrawingUpdate "A" ⟨none, some 0, some "b", none⟩ 3 true []).msgs.any
      (fun msg => msg.event == "drawing-error")) = true :=
  drawing_update_no_validation "A" ⟨none, some 0, some "b", none⟩ 3 true [] (Or.inl rfl)

/-- Claim C3: a frame-delete event applies the store delete and broadcasts
frame-deleted to the entire flipbookId room with no sender exclusion: a
connection (the sender included) receives it exactly when it is a member of
the room. -/
theorem frame_delete_broadcast_whole_room (senderId : String) (d : DeleteData)
    (st : Store) (m : Rooms) (c : String) :
    (handleFrameDelete senderId d false st).store
      = deleteFrame st d.flipbookId d.frameIndex ∧
    (handleFrameDelete senderId d false st).msgs
      = [⟨Target.toRoom d.flipbookId, "frame-deleted",
          Payload.frameDeleted d.flipbookId d.frameIndex⟩] ∧
    deliveredEvents m (handleFrameDelete senderId d false st).msgs c
      = (if (c, d.flipbookId) ∈ m then ["frame-deleted"] else []) := by
  refine ⟨rfl, rfl, ?_⟩
  by_cases h : (c, d.flipbookId) ∈ m
  · simp [handleFrameDelete, deliveredEvents, deliversTo, h]
  · simp [handleFrameDelete, deliveredEvents, deliversTo, h]

/-- Claim C9: room membership operations are idempotent: handling
join-flipbook twice in a row leaves the membership relation exactly as
handling it once, and handling leave-flipbook for a connection that is not a
member of the room leaves the relation unchanged; neither case errors. -/
theorem join_twice_leave_noop (c : String) (fid : Option String) (m : Rooms)
    (st st2 : Store) (b b2 : Bool) :
    (handleJoinFlipbook c fid b2 (handleJoinFlipbook c fid b m st).rooms st2).rooms
      = (handleJoinFlipbook c fid b m st).rooms ∧
    ((c, fid) ∉ m → handleLeaveFlipbook c fid m = m) := by
  constructor
  · have hr : ∀ (b3 : Bool) (m3 : Rooms) (st3 : Store),
        (handleJoinFlipbook c fid b3 m3 st3).rooms = joinRoom m3 c fid := by
      intro b3 m3 st3
      cases b3 <;> rfl
    simp only [hr]
    exact joinRoom_idem m c fid
  · intro h
    exact leaveRoom_of_not_mem m c fid h

/-- Witness for C9 at a concrete connection, room and empty relation. -/
theorem join_twice_leave_noop_witness :
    (handleJoinFlipbook "A" (some "cat") false
        (handleJoinFlipbook "A" (some "cat") false [] []).rooms []).rooms
      = (handleJoinFlipbook "A" (some "cat") false [] []).rooms ∧
    handleLeaveFlipbook "A" (some "cat") [] = [] :=
  ⟨(join_twice_leave_noop "A" (some "cat") [] [] [] false false).1,
   (join_twice_leave_noop "A" (some "cat") [] [] [] false false).2 (by decide)⟩

/-- Claim C10: join-flipbook adds the connection to the room before fetching
the snapshot, so when the store fetch fails the connection is still a member
of the room (and will receive later whole-room broadcasts) while receiving
neither a flipbook-state snapshot nor any error event. -/
theorem join_fetch_failure_keeps_membership (c : String) (fid : Option String)
    (m : Rooms) (st : Store) (e : String) (pl : Payload) :
    (handleJoinFlipbook c fid true m st).rooms = joinRoom m c fid ∧
    (handleJoinFlipbook c fid true m st).rooms.contains (c, fid) = true ∧
    (handleJoinFlipbook c fid true m st).msgs = [] ∧
    (handleJoinFlipbook c fid true m st).storeOps = [StoreOp.findAll fid] ∧
    deliversTo (handleJoinFlipbook c fid true m st).rooms
      ⟨Target.toRoom fid, e, pl⟩ c = true := by
  refine ⟨rfl, joinRoom_contains m c fid, rfl, rfl, ?_⟩
  simpa [deliversTo, handleJoinFlipbook] using joinRoom_contains m c fid

end Flipbook

namespace Flipbook

/-- Claim C4: a rename request whose trimmed target id already owns at least
one frame is rejected with a 400 conflict error; the store is left untouched
and nothing is broadcast, so the rejection reaches the requester only. -/
theorem rename_conflict_rejected (oldId nid : String) (st : Store)
    (hne : jsTrim nid ≠ "")
    (hocc : ∃ fr ∈ st, fr.flipbookId = some (jsTrim nid)) :
    (restRename oldId (some nid) false st).status = 400 ∧
    (restRename oldId (some nid) false st).err
      = some "A flipbook with this name already exists" ∧
    (restRename oldId (some nid) false st).store = st ∧
    (restRename oldId (some nid) false st).msgs = [] := by
  rcases hocc with ⟨fr, hmem, hfr⟩
  have hsome : (anyFrameOf st (some (jsTrim nid))).isSome = true :=
    List.find?_isSome.mpr ⟨fr, hmem, by simp [hfr]⟩
  cases hfind : anyFrameOf st (some (jsTrim nid)) with
  | none => rw [hfind] at hsome; simp at hsome
  | some fr2 => simp [restRename, hne, hfind]

/-- Witness for C4: renaming cat to dog while a frame under dog exists. -/
theorem rename_conflict_rejected_witness :
    (restRename "cat" (some "dog") false
        [⟨some "dog", some 0, some "X", "alice", 1, 1⟩]).status = 400 ∧
    (restRename "cat" (some "dog") false
        [⟨some "dog", some 0, some "X", "alice", 1, 1⟩]).err
      = some "A flipbook with this name already exists" ∧
    (restRename "cat" (some "dog") false
        [⟨some "dog", some 0, some "X", "alice", 1, 1⟩]).store
      = [⟨some "dog", some 0, some "X", "alice", 1, 1⟩] ∧
    (restRename "cat" (some "dog") false
        [⟨some "dog", some 0, some "X", "alice", 1, 1⟩]).msgs = [] :=
  rename_conflict_rejected "cat" "dog" [⟨some "dog", some 0, some "X", "alice", 1, 1⟩]
    (by decide) (by decide)

/-- Claim C6: the REST frame delete responds with success whether or not the
frame exists (and when no frame matches it leaves the store unchanged),
while the single-frame get on a nonexistent frame responds 404 with no
frame. -/
theorem delete_idempotent_get_404 (flipbookId : String) (i : Int)
    (st st2 : Store)
    (habsent : ∀ fr ∈ st, frameKeyMatches (some flipbookId) (some i) fr = false) :
    (restDeleteFrame flipbookId i false st2).status = 200 ∧
    (restDeleteFrame flipbookId i false st).store = st ∧
    (restGetFrame flipbookId i false st).status = 404 ∧
    (restGetFrame flipbookId i false st).frame = none := by
  have hfind : getFrame st (some flipbookId) (some i) = none :=
    List.find?_eq_none.mpr (fun x hx => by simp [habsent x hx])
  refine ⟨rfl, ?_, ?_, ?_⟩
  · show deleteFrame st (some flipbookId) (some i) = st
    exact List.eraseP_of_forall_not (fun a ha => by simp [habsent a ha])
  · simp [restGetFrame, hfind]
  · simp [restGetFrame, hfind]

/-- Witness for C6: empty store for the nonexistent frame, and a store that
does contain the frame for the delete response. -/
theorem delete_idempotent_get_404_witness :
    (restDeleteFrame "cat" 0 false [⟨some "cat", some 0, some "X", "alice", 1, 1⟩]).status
      = 200 ∧
    (restDeleteFrame "cat" 0 false []).store = [] ∧
    (restGetFrame "cat" 0 false []).status = 404 ∧
    (restGetFrame "cat" 0 false []).frame = none :=
  delete_idempotent_get_404 "cat" 0 []
    [⟨some "cat", some 0, some "X", "alice", 1, 1⟩] (by decide)

/-- Claim C8: deleting the frame at a given (flipbookId, frameIndex) and
then upserting the same index again stores a record whose createdAt and
updatedAt are the time of the re-add, not the timestamps of the deleted
original. -/
theorem delete_then_readd_fresh_timestamps (flipbookId : String) (i : Int)
    (st : Store) (hinv : StoreInv st) (dd : Option String) (cb : Option String)
    (now2 : Nat) :
    ∃ fr : Frame,
      (restPostFrame flipbookId i dd cb now2 false
         (restDeleteFrame flipbookId i false st).store).frame = some fr ∧
      fr.createdAt = now2 ∧ fr.updatedAt = now2 ∧
      fr ∈ (restPostFrame flipbookId i dd cb now2 false
         (restDeleteFrame flipbookId i false st).store).store := by
  have h2 : getFrame (deleteFrame st (some flipbookId) (some i))
      (some flipbookId) (some i) = none :=
    getFrame_delete_none _ _ st hinv
  have h3 : restPostFrame flipbookId i dd cb now2 false
        (deleteFrame st (some flipbookId) (some i))
      = ⟨200,
         deleteFrame st (some flipbookId) (some i)
           ++ [⟨some flipbookId, some i, dd, jsOr cb "anonymous", now2, now2⟩],
         some ⟨some flipbookId, some i, dd, jsOr cb "anonymous", now2, now2⟩⟩ := by
    simp [restPostFrame, upsertFrame, h2]
  rw [show (restDeleteFrame flipbookId i false st).store
        = deleteFrame st (some flipbookId) (some i) from rfl, h3]
  exact ⟨_, rfl, rfl, rfl, by simp⟩

/-- Witness for C8: re-adding index 0 of cat after deleting it. -/
theorem delete_then_readd_fresh_timestamps_witness :
    ∃ fr : Frame,
      (restPostFrame "cat" 0 (some "Y") (some "bob") 9 false
         (restDeleteFrame "cat" 0 false
           [⟨some "cat", some 0, some "X", "alice", 1, 2⟩]).store).frame = some fr ∧
      fr.createdAt = 9 ∧ fr.updatedAt = 9 ∧
      fr ∈ (restPostFrame "cat" 0 (some "Y") (some "bob") 9 false
         (restDeleteFrame "cat" 0 false
           [⟨some "cat", some 0, some "X", "alice", 1, 2⟩]).store).store :=
  delete_then_readd_fresh_timestamps "cat" 0
    [⟨some "cat", some 0, some "X", "alice", 1, 2⟩] (by decide) (some "Y") (some "bob") 9

end Flipbook

namespace Flipbook

/-- Claim C5: a rename whose trimmed target id owns no frame succeeds with
status 200; every frame previously stored under the old id is afterwards
present under the new id, single-frame retrieval under the new id returns a
200 response carrying a frame with the same frameIndex and drawingData, and
listing frames under the old id afterwards returns the empty sequence. -/
theorem rename_success_moves_frames (oldId nid : String) (st : Store)
    (hinv : StoreInv st) (hne : jsTrim nid ≠ "")
    (hfree : ∀ fr ∈ st, fr.flipbookId ≠ some (jsTrim nid)) :
    (restRename oldId (some nid) false st).status = 200 ∧
    (∀ fr ∈ st, fr.flipbookId = some oldId →
       ({ fr with flipbookId := some (jsTrim nid) } : Frame)
         ∈ (restRename oldId (some nid) false st).store) ∧
    (∀ fr ∈ st, fr.flipbookId = some oldId → ∀ i : Int, fr.frameIndex = some i →
       ∃ fr2 : Frame,
         (restGetFrame (jsTrim nid) i false
            (restRename oldId (some nid) false st).store).status = 200 ∧
         (restGetFrame (jsTrim nid) i false
            (restRename oldId (some nid) false st).store).frame = some fr2 ∧
         fr2.frameIndex = some i ∧ fr2.drawingData = fr.drawingData) ∧
    (restGetFrames oldId false (restRename oldId (some nid) false st).store).frames
      = [] := by
  have hfind : anyFrameOf st (some (jsTrim nid)) = none :=
    List.find?_eq_none.mpr (fun fr hmem => by simp [hfree fr hmem])
  have hres : restRename oldId (some nid) false st
      = ⟨200, none, renameFrames st oldId (jsTrim nid),
         [⟨Target.toRoom (some oldId), "flipbook-renamed",
           Payload.flipbookRenamed oldId (jsTrim nid)⟩]⟩ := by
    simp [restRename, hne, hfind]
  rw [hres]
  refine ⟨rfl, ?_, ?_, ?_⟩
  · intro fr hmem hfid
    exact List.mem_map.mpr ⟨fr, hmem, by simp [hfid]⟩
  · intro fr hmem hfid i hi
    have hmemNew : ({ fr with flipbookId := some (jsTrim nid) } : Frame)
        ∈ renameFrames st oldId (jsTrim nid) :=
      List.mem_map.mpr ⟨fr, hmem, by simp [hfid]⟩
    have hpmem : frameKeyMatches (some (jsTrim nid)) (some i)
        ({ fr with flipbookId := some (jsTrim nid) } : Frame) = true := by
      simp [frameKeyMatches, hi]
    have hsome : (getFrame (renameFrames st oldId (jsTrim nid))
        (some (jsTrim nid)) (some i)).isSome = true :=
      List.find?_isSome.mpr ⟨_, hmemNew, hpmem⟩
    cases hfind3 : getFrame (renameFrames st oldId (jsTrim nid))
        (some (jsTrim nid)) (some i) with
    | none => rw [hfind3] at hsome; simp at hsome
    | some fr3 =>
      have hp3 := List.find?_some hfind3
      have hm3 := List.mem_of_find?_eq_some hfind3
      rcases (frameKeyMatches_iff _ _ _).mp hp3 with ⟨hf3, hi3⟩
      rcases List.mem_map.mp hm3 with ⟨fr0, hm0, he0⟩
      refine ⟨fr3, by simp [restGetFrame, hfind3], by simp [restGetFrame, hfind3], hi3, ?_⟩
      by_cases h0 : fr0.flipbookId = some oldId
      · have he0x : ({ fr0 with flipbookId := some (jsTrim nid) } : Frame) = fr3 := by
          simpa [h0] using he0
        have hidx0 : fr0.frameIndex = some i := by
          rw [← he0x] at hi3
          simpa using hi3
        have hk : frameKey fr0 = frameKey fr := by
          simp [frameKey, Prod.ext_iff, h0, hfid, hidx0, hi]
        have heqfr : fr0 = fr := storeInv_key_unique hinv hm0 hmem hk
        rw [← he0x, ← heqfr]
      · have he0x : fr0 = fr3 := by simpa [h0] using he0
        exact absurd (he0x ▸ hf3) (hfree fr0 hm0)
  · have hnil : (renameFrames st oldId (jsTrim nid)).filter
        (fun fr => fr.flipbookId == some oldId) = [] := by
      apply List.filter_eq_nil_iff.mpr
      intro fr2 hmem2
      simp only [beq_iff_eq]
      rcases List.mem_map.mp hmem2 with ⟨fr0, hm0, he0⟩
      by_cases h0 : fr0.flipbookId = some oldId
      · have hfb : fr2.flipbookId = some (jsTrim nid) := by
          rw [← he0]
          simp [h0]
        rw [hfb]
        intro hco
        have ht : jsTrim nid = oldId := Option.some.inj hco
        exact hfree fr0 hm0 (by rw [h0, ht])
      · have hfb : fr2.flipbookId = fr0.flipbookId := by
          rw [← he0]
          simp [h0]
        rw [hfb]
        exact h0
    simp [restGetFrames, listFrames, hnil]

/-- Witness for C5: renaming cat (one frame) to dog with dog unoccupied. -/
theorem rename_success_moves_frames_witness :
    (restRename "cat" (some "dog") false
        [⟨some "cat", some 0, some "X", "alice", 1, 1⟩]).status = 200 ∧
    (∀ fr ∈ ([⟨some "cat", some 0, some "X", "alice", 1, 1⟩] : Store),
       fr.flipbookId = some "cat" →
       ({ fr with flipbookId := some (jsTrim "dog") } : Frame)
         ∈ (restRename "cat" (some "dog") false
             [⟨some "cat", some 0, some "X", "alice", 1, 1⟩]).store) ∧
    (∀ fr ∈ ([⟨some "cat", some 0, some "X", "alice", 1, 1⟩] : Store),
       fr.flipbookId = some "cat" → ∀ i : Int, fr.frameIndex = some i →
       ∃ fr2 : Frame,
         (restGetFrame (jsTrim "dog") i false
            (restRename "cat" (some "dog") false
              [⟨some "cat", some 0, some "X", "alice", 1, 1⟩]).store).status = 200 ∧
         (restGetFrame (jsTrim "dog") i false
            (restRename "cat" (some "dog") false
              [⟨some "cat", some 0, some "X", "alice", 1, 1⟩]).store).frame = some fr2 ∧
         fr2.frameIndex = some i ∧ fr2.drawingData = fr.drawingData) ∧
    (restGetFrames "cat" false
        (restRename "cat" (some "dog") false
          [⟨some "cat", some 0, some "X", "alice", 1, 1⟩]).store).frames = [] :=
  rename_success_moves_frames "cat" "dog"
    [⟨some "cat", some 0, some "X", "alice", 1, 1⟩]
    (by decide) (by decide) (by decide)

/-- Claim C7: listFrames returns the flipbook frames sorted ascending by
frameIndex and containing no two frames with the same frameIndex, and
uniqueness of the (flipbookId, frameIndex) key is preserved by every store
operation: upsert, single-frame delete, rename, and whole-flipbook delete. -/
theorem listFrames_sorted_unique (qf : Option String) (st : Store)
    (hinv : StoreInv st) :
    List.Sorted frameLe (listFrames st qf) ∧
    (listFrames st qf).Pairwise (fun a b => a.frameIndex ≠ b.frameIndex) ∧
    (∀ (qf2 : Option String) (qi2 : Option Int) (dd : Option String)
       (cb : String) (now : Nat), StoreInv (upsertFrame st qf2 qi2 dd cb now).1) ∧
    (∀ (qf2 : Option String) (qi2 : Option Int), StoreInv (deleteFrame st qf2 qi2)) ∧
    (∀ (oldId : String) (nid : Option String) (b : Bool),
       StoreInv (restRename oldId nid b st).store) ∧
    (∀ fid : String, StoreInv (deleteFlipbookFrames st fid)) :=
  ⟨listFrames_sorted st qf, listFrames_nodup_index st qf hinv,
   fun qf2 qi2 dd cb now => storeInv_upsert st qf2 qi2 dd cb now hinv,
   fun qf2 qi2 => storeInv_delete st qf2 qi2 hinv,
   fun oldId nid b => storeInv_restRename oldId nid b st hinv,
   fun fid => storeInv_deleteFlipbook st fid hinv⟩

/-- Witness for C7 on a concrete two-frame store. -/
theorem listFrames_sorted_unique_witness :
    List.Sorted frameLe (listFrames
      [⟨some "cat", some 1, some "B", "a", 1, 1⟩,
       ⟨some "cat", some 0, some "A", "a", 1, 1⟩] (some "cat")) ∧
    (listFrames
      [⟨some "cat", some 1, some "B", "a", 1, 1⟩,
       ⟨some "cat", some 0, some "A", "a", 1, 1⟩] (some "cat")).Pairwise
        (fun a b => a.frameIndex ≠ b.frameIndex) ∧
    (∀ (qf2 : Option String) (qi2 : Option Int) (dd : Option String)
       (cb : String) (now : Nat), StoreInv (upsertFrame
         [⟨some "cat", some 1, some "B", "a", 1, 1⟩,
          ⟨some "cat", some 0, some "A", "a", 1, 1⟩] qf2 qi2 dd cb now).1) ∧
    (∀ (qf2 : Option String) (qi2 : Option Int), StoreInv (deleteFrame
       [⟨some "cat", some 1, some "B", "a", 1, 1⟩,
        ⟨some "cat", some 0, some "A", "a", 1, 1⟩] qf2 qi2)) ∧
    (∀ (oldId : String) (nid : Option String) (b : Bool),
       StoreInv (restRename oldId nid b
         [⟨some "cat", some 1, some "B", "a", 1, 1⟩,
          ⟨some "cat", some 0, some "A", "a", 1, 1⟩]).store) ∧
    (∀ fid : String, StoreInv (deleteFlipbookFrames
       [⟨some "cat", some 1, some "B", "a", 1, 1⟩,
        ⟨some "cat", some 0, some "A", "a", 1, 1⟩] fid)) :=
  listFrames_sorted_unique (some "cat")
    [⟨some "cat", some 1, some "B", "a", 1, 1⟩,
     ⟨some "cat", some 0, some "A", "a", 1, 1⟩] (by decide)

end Flipbook
